import Mathlib

/-!
Shallow embedding of the federation policy layer of `crates/apub` (Lemmy):
the domain policy validators `check_apub_id_valid` and
`check_apub_id_valid_with_strictness`, the canonical URL generators
`generate_local_apub_endpoint` and `generate_shared_inbox_url`, the lenient
deserializers `deserialize_one_or_many` and `deserialize_skip_error`, and the
site outbox handler `get_apub_site_outbox`.

URLs are modelled structurally (scheme, host, optional port, normalized path
segments).  `Url.parse` models the fragment of the WHATWG URL parser exercised
by the code: `scheme://host[:port]/path`, including dot-segment removal on the
path, which the `url` crate performs on every parse.
-/

namespace Lemmy

/-- Structural model of a parsed `url::Url`: scheme, host, optional port and
the path as a list of segments (after dot-segment removal). -/
structure Url where
  scheme : String
  host : Option String
  port : Option Nat
  path : List String
  deriving DecidableEq, Repr

/-- `url::Url::domain()`.  The model identifies the domain with the host
(the code never feeds IP-address hosts through the policy check). -/
def Url.domain (u : Url) : Option String := u.host

/-- Modelled from the spec: the federation section of the configuration —
enabled flag, optional allow-list, optional block-list, strict-allowlist
flag (the `FederationConfig` struct lives outside the excerpt; its fields
are read by `check_apub_id_valid`). -/
structure FederationConfig where
  enabled : Bool
  allowed_instances : Option (List String)
  blocked_instances : Option (List String)
  strict_allowlist : Bool
  deriving DecidableEq, Repr

/-- Modelled from the spec: the process-wide settings — local hostname
(possibly with a port) and the configured protocol scheme, plus the
federation section. -/
structure Settings where
  hostname : String
  protocol : String
  federation : FederationConfig
  deriving DecidableEq, Repr

/-- Characters of `cs` before the first character in `stop`. -/
def takeWhileNot (stop : List Char) : List Char → List Char
  | [] => []
  | c :: cs => if c ∈ stop then [] else c :: takeWhileNot stop cs

/-- Suffix of `cs` from the first character in `stop` (inclusive). -/
def dropToStop (stop : List Char) : List Char → List Char
  | [] => []
  | c :: cs => if c ∈ stop then c :: cs else dropToStop stop cs

/-- Modelled from the spec: `Settings::get_hostname_without_port` — the
hostname up to the first `:`. -/
def Settings.get_hostname_without_port (s : Settings) : String :=
  String.mk (takeWhileNot [':'] s.hostname.data)

/-- Modelled from the spec: `Settings::get_protocol_string` — the configured
protocol scheme ("http" or "https"). -/
def Settings.get_protocol_string (s : Settings) : String := s.protocol

/-- Modelled from the spec: `Settings::get_protocol_and_hostname` — the
scheme and hostname joined as `scheme://hostname`. -/
def Settings.get_protocol_and_hostname (s : Settings) : String :=
  s.get_protocol_string ++ "://" ++ s.hostname

/-- Outcome of a policy check: `Ok(())`, `Err(msg)`, or a Rust panic
(an `.expect` that fired). -/
inductive CheckOutcome where
  | ok
  | err (msg : String)
  | panic (msg : String)
  deriving DecidableEq, Repr

/-- `check_apub_id_valid` (crates/apub/src/lib.rs).  Mirrors the early
returns of the source: local hostname short-circuit, federation-enabled
gate, scheme gate, block-list gate, then the unconditional allow-list
membership test.  The source extracts the domain with
`.expect("apud id has domain")`, which panics when the URL has none. -/
def check_apub_id_valid (apub_id : Url) (settings : Settings) : CheckOutcome :=
  match apub_id.domain with
  | none => CheckOutcome.panic "apud id has domain"
  | some domain =>
    let local_instance := settings.get_hostname_without_port
    if domain = local_instance then CheckOutcome.ok
    else if settings.federation.enabled = false then CheckOutcome.err "Federation disabled"
    else if apub_id.scheme ≠ settings.get_protocol_string then
      CheckOutcome.err "Invalid protocol scheme"
    else if (match settings.federation.blocked_instances with
             | some blocked => decide (domain ∈ blocked)
             | none => false) then CheckOutcome.err "Domain is blocked"
    else
      match settings.federation.allowed_instances with
      | some allowed =>
        if domain ∈ allowed then CheckOutcome.ok
        else CheckOutcome.err "Domain is not in allowlist"
      | none => CheckOutcome.ok

/-- `check_apub_id_valid_with_strictness` (crates/apub/src/lib.rs).  First
propagates any failure of `check_apub_id_valid`, then re-extracts the
domain, allows the local instance, and applies the allow-list (with the
local instance pushed onto it) only when `is_strict` or the global
`strict_allowlist` flag is set. -/
def check_apub_id_valid_with_strictness (apub_id : Url) (is_strict : Bool)
    (settings : Settings) : CheckOutcome :=
  match check_apub_id_valid apub_id settings with
  | CheckOutcome.err m => CheckOutcome.err m
  | CheckOutcome.panic m => CheckOutcome.panic m
  | CheckOutcome.ok =>
    match apub_id.domain with
    | none => CheckOutcome.panic "apud id has domain"
    | some domain =>
      let local_instance := settings.get_hostname_without_port
      if domain = local_instance then CheckOutcome.ok
      else
        match settings.federation.allowed_instances with
        | some allowed =>
          if is_strict || settings.federation.strict_allowlist then
            if domain ∈ allowed ++ [local_instance] then CheckOutcome.ok
            else CheckOutcome.err "Federation forbidden by strict allowlist"
          else CheckOutcome.ok
        | none => CheckOutcome.ok

/-! ## A model of `url::Url::parse` for `scheme://host[:port]/path` strings

The `url` crate's parser, on the strings built by the generators below,
splits off the scheme at `:`, reads the authority up to the first `/`, `?`
or `#`, splits host from port at `:`, and normalizes the path by removing
dot segments (`.` and `..`).  The model mirrors exactly that fragment. -/

/-- Helper for `splitOnSlash`: `acc` holds the current segment reversed. -/
def splitOnSlashAux (acc : List Char) : List Char → List String
  | [] => [String.mk acc.reverse]
  | c :: cs =>
    if c = '/' then String.mk acc.reverse :: splitOnSlashAux [] cs
    else splitOnSlashAux (c :: acc) cs

/-- Split a character list into `/`-separated segments, e.g. `c/x` into
`["c", "x"]`. -/
def splitOnSlash (cs : List Char) : List String := splitOnSlashAux [] cs

/-- WHATWG dot-segment removal: `.` segments are dropped, `..` segments pop
the previous segment. -/
def removeDotSegments (segs : List String) : List String :=
  segs.foldl
    (fun acc seg =>
      if seg = "." then acc
      else if seg = ".." then acc.dropLast
      else acc ++ [seg]) []

/-- Path segments of the remainder after the authority: empty for an empty
remainder, otherwise the remainder starts with `/` and is split on `/`. -/
def pathSegments : List Char → List String
  | '/' :: rest => splitOnSlash rest
  | _ => []

/-- Normalized path of a raw path remainder. -/
def urlPath (cs : List Char) : List String := removeDotSegments (pathSegments cs)

/-- Decimal digit characters, used to render a port the way `format!` does. -/
def digitChar (n : Nat) : Char :=
  match n with
  | 0 => '0' | 1 => '1' | 2 => '2' | 3 => '3' | 4 => '4'
  | 5 => '5' | 6 => '6' | 7 => '7' | 8 => '8' | _ => '9'

/-- Decimal digits of `n`, most significant first. -/
def natDigits (n : Nat) : List Char :=
  if _ : n < 10 then [digitChar n]
  else natDigits (n / 10) ++ [digitChar (n % 10)]
termination_by n
decreasing_by
  exact Nat.div_lt_self (by omega) (by omega)

/-- Decimal rendering of `n` (the model of `format!("{}", n)`). -/
def natDecimal (n : Nat) : String := String.mk (natDigits n)

/-- Numeric value of a digit character. -/
def digitVal (c : Char) : Nat := c.toNat - 48

/-- Numeric value of a digit string, most significant first. -/
def digitsToNat (ds : List Char) : Nat := ds.foldl (fun a c => a * 10 + digitVal c) 0

/-- Model of `url::Url::parse` on `scheme://host[:port]path` strings.
The remainder after the scheme's `:` must start with `//`; the authority
runs to the first `/`, `?` or `#`; a non-empty port remainder starts with
`:` (guaranteed by `dropToStop`) and must be all digits. -/
def Url.parse (s : String) : Option Url :=
  let cs := s.data
  let schemeChars := takeWhileNot [':'] cs
  let rest0 := dropToStop [':'] cs
  if rest0.take 3 = [':', '/', '/'] then
    if schemeChars = [] then none
    else
      let rest := rest0.drop 3
      let authChars := takeWhileNot ['/', '?', '#'] rest
      let pathChars := dropToStop ['/', '?', '#'] rest
      let hostChars := takeWhileNot [':'] authChars
      let portChars := dropToStop [':'] authChars
      if hostChars = [] then none
      else if portChars = [] then
        some ⟨String.mk schemeChars, some (String.mk hostChars), none, urlPath pathChars⟩
      else
        let ds := portChars.tail
        if ds ≠ [] ∧ ds.all (fun c => c.isDigit) then
          some ⟨String.mk schemeChars, some (String.mk hostChars), some (digitsToNat ds),
                urlPath pathChars⟩
        else none
  else none

/-- The `:{port}` suffix of the authority written by `generate_shared_inbox_url`:
empty when the actor id has no port. -/
def portString : Option Nat → String
  | some p => ":" ++ natDecimal p
  | none => ""

/-- `generate_shared_inbox_url` (crates/apub/src/lib.rs): fails when the
actor id has no host, otherwise formats
`{scheme}://{host}[:{port}]/inbox` and parses it back. -/
def generate_shared_inbox_url (actor_id : Url) : Option Url :=
  match actor_id.host with
  | none => none
  | some host =>
    Url.parse (actor_id.scheme ++ "://" ++ host ++ portString actor_id.port ++ "/inbox")

/-- `EndpointType` (crates/apub/src/lib.rs). -/
inductive EndpointType where
  | Community
  | Person
  | Post
  | Comment
  | PrivateMessage
  deriving DecidableEq, Repr

/-- The path prefix of each endpoint type. -/
def EndpointType.point : EndpointType → String
  | .Community => "c"
  | .Person => "u"
  | .Post => "post"
  | .Comment => "comment"
  | .PrivateMessage => "private_message"

/-- `generate_local_apub_endpoint` (crates/apub/src/lib.rs): formats
`{domain}/{point}/{name}` and parses it as a URL. -/
def generate_local_apub_endpoint (endpoint_type : EndpointType) (name : String)
    (domain : String) : Option Url :=
  Url.parse (domain ++ "/" ++ endpoint_type.point ++ "/" ++ name)

/-- Characters acceptable in a host name in the theorems below: letters,
digits, `.` and `-`.  In particular no `/`, `:`, `?` or `#`. -/
def hostSafeChar (c : Char) : Bool := c.isAlpha || c.isDigit || c = '.' || c = '-'

/-- Characters acceptable in a single path segment in the theorems below:
letters, digits, `_` and `-`.  In particular no `/` and no `.`. -/
def segSafeChar (c : Char) : Bool := c.isAlpha || c.isDigit || c = '_' || c = '-'

/-! ## The lenient JSON codec -/

/-- A JSON value, the input to the deserialization strategies. -/
inductive Json where
  | null
  | bool (b : Bool)
  | num (n : Int)
  | str (s : String)
  | arr (xs : List Json)
  | obj (kvs : List (String × Json))

/-- Deserializing `Vec<T>`: every element of an array must parse. -/
def parseAll {T : Type} (parseT : Json → Option T) : List Json → Option (List T)
  | [] => some []
  | j :: js =>
    match parseT j, parseAll parseT js with
    | some t, some ts => some (t :: ts)
    | _, _ => none

/-- `deserialize_one_or_many` (crates/apub/src/lib.rs): the untagged
`OneOrMany` enum tries the bare variant `One(T)` first and wraps it in a
one-element list, then the array variant `Many(Vec<T>)`, which only
deserializes from a JSON array. -/
def deserialize_one_or_many {T : Type} (parseT : Json → Option T) (j : Json) :
    Option (List T) :=
  match parseT j with
  | some value => some [value]
  | none =>
    match j with
    | Json.arr xs => parseAll parseT xs
    | _ => none

/-- `deserialize_skip_error` (crates/apub/src/lib.rs): parse the field; on
success return the value, on any failure return the type's default — the
overall result is always `Ok`. -/
def deserialize_skip_error {T : Type} (parseT : Json → Option T) (default : T)
    (j : Json) : Option T :=
  some
    (match parseT j with
     | some o => o
     | none => default)

/-- A concrete element parser for witnesses: accepts exactly JSON strings. -/
def strParser : Json → Option String
  | Json.str s => some s
  | _ => none

/-! ## The site outbox handler -/

/-- Modelled from the spec: `EmptyOutbox` (crates/apub/src/protocol/
collections/empty_outbox.rs, outside the excerpt) — a statically
constructed, paginated-but-empty ordered collection with the given id,
zero total items and no ordered items. -/
structure EmptyOutbox where
  id : Url
  total_items : Nat
  ordered_items : List Json

/-- Modelled from the spec: `EmptyOutbox::new(url)` — the empty collection
at `url`. -/
def EmptyOutbox.new (url : Url) : EmptyOutbox :=
  { id := url, total_items := 0, ordered_items := [] }

/-- `get_apub_site_outbox` (crates/apub/src/http/site.rs): formats
`{protocol_and_hostname}/site_outbox`, parses it (propagating parse
failure) and returns the `EmptyOutbox` built from it.  It reads no stored
activity state. -/
def get_apub_site_outbox (settings : Settings) : Option EmptyOutbox :=
  match Url.parse (settings.get_protocol_and_hostname ++ "/site_outbox") with
  | none => none
  | some url => some (EmptyOutbox.new url)

/-! ## Concrete configurations and URLs used in counterexamples and witnesses -/

/-- Concrete settings: federation enabled, allow-list `["good.tld"]`,
no block-list, strict-allowlist disabled, local hostname `local.tld`. -/
def settingsAllow : Settings :=
  { hostname := "local.tld"
    protocol := "https"
    federation :=
      { enabled := true
        allowed_instances := some ["good.tld"]
        blocked_instances := none
        strict_allowlist := false } }

/-- A remote URL `https://bad.tld/u/x` whose domain is absent from the
allow-list of `settingsAllow`. -/
def urlBad : Url := { scheme := "https", host := some "bad.tld", port := none, path := ["u", "x"] }

/-- A URL with no domain component (e.g. a `file:` or data URL). -/
def urlNoDomain : Url := { scheme := "https", host := none, port := none, path := [] }

/-- Settings whose block-list (and allow-list) contain the local hostname
`local.tld` itself. -/
def settingsBlockLocal : Settings :=
  { hostname := "local.tld"
    protocol := "https"
    federation :=
      { enabled := true
        allowed_instances := some ["local.tld"]
        blocked_instances := some ["local.tld", "evil.tld"]
        strict_allowlist := false } }

/-- The local URL `https://local.tld/u/x`. -/
def urlLocal : Url := { scheme := "https", host := some "local.tld", port := none, path := ["u", "x"] }

/-! ## Helper lemmas about the string scanners -/

theorem takeWhileNot_clean (stop : List Char) (xs : List Char)
    (h : ∀ c ∈ xs, c ∉ stop) : takeWhileNot stop xs = xs := by
  induction xs with
  | nil => rfl
  | cons c cs ih =>
    simp only [takeWhileNot]
    rw [if_neg (h c (List.mem_cons_self c cs))]
    rw [ih fun c' hc' => h c' (List.mem_cons_of_mem _ hc')]

theorem dropToStop_clean (stop : List Char) (xs : List Char)
    (h : ∀ c ∈ xs, c ∉ stop) : dropToStop stop xs = [] := by
  induction xs with
  | nil => rfl
  | cons c cs ih =>
    simp only [dropToStop]
    rw [if_neg (h c (List.mem_cons_self c cs))]
    exact ih fun c' hc' => h c' (List.mem_cons_of_mem _ hc')

theorem takeWhileNot_append_stop (stop : List Char) (xs : List Char) (c : Char) (ys : List Char)
    (h : ∀ a ∈ xs, a ∉ stop) (hc : c ∈ stop) :
    takeWhileNot stop (xs ++ c :: ys) = xs := by
  induction xs with
  | nil => simp [takeWhileNot, hc]
  | cons a as ih =>
    simp only [List.cons_append, takeWhileNot]
    rw [if_neg (h a (List.mem_cons_self a as))]
    exact congrArg (fun l => a :: l) (ih fun a' ha' => h a' (List.mem_cons_of_mem _ ha'))

theorem dropToStop_append_stop (stop : List Char) (xs : List Char) (c : Char) (ys : List Char)
    (h : ∀ a ∈ xs, a ∉ stop) (hc : c ∈ stop) :
    dropToStop stop (xs ++ c :: ys) = c :: ys := by
  induction xs with
  | nil => simp [dropToStop, hc]
  | cons a as ih =>
    simp only [List.cons_append, dropToStop]
    rw [if_neg (h a (List.mem_cons_self a as))]
    exact ih fun a' ha' => h a' (List.mem_cons_of_mem _ ha')

theorem splitOnSlashAux_clean (acc : List Char) (xs : List Char)
    (h : ∀ c ∈ xs, c ≠ '/') :
    splitOnSlashAux acc xs = [String.mk (acc.reverse ++ xs)] := by
  induction xs generalizing acc with
  | nil => simp [splitOnSlashAux]
  | cons c cs ih =>
    simp only [splitOnSlashAux]
    rw [if_neg (h c (List.mem_cons_self c cs))]
    rw [ih (c :: acc) fun c' hc' => h c' (List.mem_cons_of_mem _ hc')]
    simp

theorem splitOnSlashAux_append (acc : List Char) (xs ys : List Char)
    (h : ∀ c ∈ xs, c ≠ '/') :
    splitOnSlashAux acc (xs ++ '/' :: ys)
      = String.mk (acc.reverse ++ xs) :: splitOnSlashAux [] ys := by
  induction xs generalizing acc with
  | nil => simp [splitOnSlashAux]
  | cons c cs ih =>
    simp only [List.cons_append, splitOnSlashAux]
    rw [if_neg (h c (List.mem_cons_self c cs))]
    have hrec := ih (c :: acc) fun c' hc' => h c' (List.mem_cons_of_mem _ hc')
    simp only [List.reverse_cons, List.append_assoc, List.singleton_append] at hrec
    exact hrec

theorem splitOnSlash_clean (xs : List Char) (h : ∀ c ∈ xs, c ≠ '/') :
    splitOnSlash xs = [String.mk xs] := by
  unfold splitOnSlash
  rw [splitOnSlashAux_clean _ _ h]
  simp

theorem splitOnSlash_append (xs ys : List Char) (h : ∀ c ∈ xs, c ≠ '/') :
    splitOnSlash (xs ++ '/' :: ys) = String.mk xs :: splitOnSlash ys := by
  unfold splitOnSlash
  rw [splitOnSlashAux_append _ _ _ h]
  simp

/-! ## Decimal rendering round-trip -/

theorem digitVal_digitChar (d : Nat) (h : d < 10) : digitVal (digitChar d) = d := by
  interval_cases d <;> rfl

theorem isDigit_digitChar (d : Nat) (h : d < 10) : (digitChar d).isDigit = true := by
  interval_cases d <;> rfl

theorem natDigits_ne_nil (n : Nat) : natDigits n ≠ [] := by
  rw [natDigits]
  split
  · simp
  · simp

theorem natDigits_all_digit (n : Nat) : ∀ c ∈ natDigits n, c.isDigit = true := by
  induction n using Nat.strong_induction_on with
  | _ n ih =>
    rw [natDigits]
    split
    next h =>
      intro c hc
      rw [List.mem_singleton] at hc
      subst hc
      exact isDigit_digitChar n h
    next h =>
      intro c hc
      rw [List.mem_append] at hc
      rcases hc with hc | hc
      · exact ih (n / 10) (Nat.div_lt_self (by omega) (by omega)) c hc
      · rw [List.mem_singleton] at hc
        subst hc
        exact isDigit_digitChar _ (Nat.mod_lt _ (by omega))

theorem digitsToNat_append (xs : List Char) (c : Char) :
    digitsToNat (xs ++ [c]) = digitsToNat xs * 10 + digitVal c := by
  simp [digitsToNat, List.foldl_append]

theorem digitsToNat_natDigits (n : Nat) : digitsToNat (natDigits n) = n := by
  induction n using Nat.strong_induction_on with
  | _ n ih =>
    rw [natDigits]
    split
    next h =>
      simp [digitsToNat, digitVal_digitChar n h]
    next h =>
      rw [digitsToNat_append, ih (n / 10) (Nat.div_lt_self (by omega) (by omega)),
          digitVal_digitChar _ (Nat.mod_lt _ (by omega))]
      omega

/-! ## Character-class facts -/

theorem alpha_not_colon {c : Char} (h : c.isAlpha = true) : c ∉ ([':'] : List Char) := by
  intro hm
  rw [List.mem_singleton] at hm
  subst hm
  exact absurd h (by decide)

theorem hostSafe_not_colon {c : Char} (h : hostSafeChar c = true) :
    c ∉ ([':'] : List Char) := by
  intro hm
  rw [List.mem_singleton] at hm
  subst hm
  exact absurd h (by decide)

theorem hostSafe_not_pathstop {c : Char} (h : hostSafeChar c = true) :
    c ∉ (['/', '?', '#'] : List Char) := by
  intro hm
  simp only [List.mem_cons, List.mem_singleton, List.not_mem_nil, or_false] at hm
  rcases hm with rfl | rfl | rfl <;> exact absurd h (by decide)

theorem isDigit_not_pathstop {c : Char} (h : c.isDigit = true) :
    c ∉ (['/', '?', '#'] : List Char) := by
  intro hm
  simp only [List.mem_cons, List.mem_singleton, List.not_mem_nil, or_false] at hm
  have hb : ('0' ≤ c ∧ c ≤ '9') := by
    rw [Char.isDigit] at h
    simp only [Bool.and_eq_true, decide_eq_true_eq] at h
    exact h
  rcases hm with rfl | rfl | rfl <;> revert hb <;> decide

theorem segSafe_not_slash {c : Char} (h : segSafeChar c = true) : c ≠ '/' := by
  intro hm
  subst hm
  exact absurd h (by decide)

theorem segSafe_string_not_dot {s : String} (hne : s.data ≠ [])
    (h : ∀ c ∈ s.data, segSafeChar c = true) : s ≠ "." ∧ s ≠ ".." := by
  constructor
  · intro he
    subst he
    exact absurd (h '.' (by decide)) (by decide)
  · intro he
    subst he
    exact absurd (h '.' (by decide)) (by decide)

/-- Parsing a string assembled as `scheme://host[:port]path` recovers its
components, for an alphabetic non-empty scheme, a non-empty host of
host-safe characters, any port, and a path remainder that is empty or
starts with `/`. -/
theorem parse_build (scheme host : String) (port : Option Nat) (pathChars : List Char)
    (hs : scheme.data ≠ [])
    (hsc : ∀ c ∈ scheme.data, c.isAlpha = true)
    (hh : host.data ≠ [])
    (hhc : ∀ c ∈ host.data, hostSafeChar c = true)
    (hpath : pathChars = [] ∨ ∃ rest, pathChars = '/' :: rest) :
    Url.parse (scheme ++ "://" ++ host ++ portString port ++ String.mk pathChars)
      = some ⟨scheme, some host, port, urlPath pathChars⟩ := by
  have hscolon : ∀ c ∈ scheme.data, c ∉ ([':'] : List Char) :=
    fun c hc => alpha_not_colon (hsc c hc)
  have hhcolon : ∀ c ∈ host.data, c ∉ ([':'] : List Char) :=
    fun c hc => hostSafe_not_colon (hhc c hc)
  have hhpath : ∀ c ∈ host.data, c ∉ (['/', '?', '#'] : List Char) :=
    fun c hc => hostSafe_not_pathstop (hhc c hc)
  rcases port with _ | p
  · have hdata : (scheme ++ "://" ++ host ++ portString none ++ String.mk pathChars).data
        = scheme.data ++ ':' :: '/' :: '/' :: (host.data ++ pathChars) := by
      simp [portString, String.data_append, List.append_assoc]
    have hauth : takeWhileNot ['/', '?', '#'] (host.data ++ pathChars) = host.data := by
      rcases hpath with rfl | ⟨rest, rfl⟩
      · rw [List.append_nil]
        exact takeWhileNot_clean _ _ hhpath
      · exact takeWhileNot_append_stop _ _ _ _ hhpath (by decide)
    have hpathdrop : dropToStop ['/', '?', '#'] (host.data ++ pathChars) = pathChars := by
      rcases hpath with rfl | ⟨rest, rfl⟩
      · rw [List.append_nil]
        exact dropToStop_clean _ _ hhpath
      · exact dropToStop_append_stop _ _ _ _ hhpath (by decide)
    unfold Url.parse
    rw [hdata]
    dsimp only
    rw [takeWhileNot_append_stop _ _ _ _ hscolon (by decide)]
    rw [dropToStop_append_stop _ _ _ _ hscolon (by decide)]
    rw [if_pos (by rfl)]
    rw [if_neg hs]
    dsimp only [List.drop]
    rw [hauth, hpathdrop]
    rw [takeWhileNot_clean _ _ hhcolon, dropToStop_clean _ _ hhcolon]
    rw [if_neg hh]
    rw [if_pos rfl]
  · have hdata : (scheme ++ "://" ++ host ++ portString (some p) ++ String.mk pathChars).data
        = scheme.data ++ ':' :: '/' :: '/' :: ((host.data ++ ':' :: natDigits p) ++ pathChars) := by
      simp [portString, natDecimal, String.data_append, List.append_assoc]
    have hxclean : ∀ c ∈ host.data ++ ':' :: natDigits p, c ∉ (['/', '?', '#'] : List Char) := by
      intro c hc
      rw [List.mem_append] at hc
      rcases hc with hc | hc
      · exact hhpath c hc
      · rw [List.mem_cons] at hc
        rcases hc with rfl | hc
        · decide
        · exact isDigit_not_pathstop (natDigits_all_digit p c hc)
    have hauth : takeWhileNot ['/', '?', '#'] ((host.data ++ ':' :: natDigits p) ++ pathChars)
        = host.data ++ ':' :: natDigits p := by
      rcases hpath with rfl | ⟨rest, rfl⟩
      · rw [List.append_nil]
        exact takeWhileNot_clean _ _ hxclean
      · exact takeWhileNot_append_stop _ _ _ _ hxclean (by decide)
    have hpathdrop : dropToStop ['/', '?', '#'] ((host.data ++ ':' :: natDigits p) ++ pathChars)
        = pathChars := by
      rcases hpath with rfl | ⟨rest, rfl⟩
      · rw [List.append_nil]
        exact dropToStop_clean _ _ hxclean
      · exact dropToStop_append_stop _ _ _ _ hxclean (by decide)
    unfold Url.parse
    rw [hdata]
    dsimp only
    rw [takeWhileNot_append_stop _ _ _ _ hscolon (by decide)]
    rw [dropToStop_append_stop _ _ _ _ hscolon (by decide)]
    rw [if_pos (by rfl)]
    rw [if_neg hs]
    dsimp only [List.drop]
    rw [hauth, hpathdrop]
    rw [takeWhileNot_append_stop _ _ _ _ hhcolon (by decide)]
    rw [dropToStop_append_stop _ _ _ _ hhcolon (by decide)]
    rw [if_neg hh]
    rw [if_neg (by simp)]
    dsimp only [List.tail]
    rw [if_pos ⟨natDigits_ne_nil p, by
      rw [List.all_eq_true]
      intro c hc
      exact natDigits_all_digit p c hc⟩]
    rw [digitsToNat_natDigits]

/-- C6: for every actor id URL with a host (well-formed scheme and host
characters), `generate_shared_inbox_url` returns the URL with the same
scheme, host and port and the path replaced entirely by `/inbox`,
discarding the actor-specific path. -/
theorem c6_shared_inbox_host_level (u : Url) (h : String)
    (hhost : u.host = some h)
    (hs : u.scheme.data ≠ [])
    (hsc : ∀ c ∈ u.scheme.data, c.isAlpha = true)
    (hhd : h.data ≠ [])
    (hhc : ∀ c ∈ h.data, hostSafeChar c = true) :
    generate_shared_inbox_url u = some ⟨u.scheme, some h, u.port, ["inbox"]⟩ := by
  unfold generate_shared_inbox_url
  rw [hhost]
  have hb := parse_build u.scheme h u.port ("/inbox".data) hs hsc hhd hhc
    (Or.inr ⟨"inbox".data, by decide⟩)
  have hp : urlPath ("/inbox".data) = ["inbox"] := by decide
  rw [hp] at hb
  exact hb

theorem c6_witness :
    generate_shared_inbox_url
      { scheme := "https", host := some "example.org", port := some 8080,
        path := ["u", "alice"] }
      = some { scheme := "https", host := some "example.org", port := some 8080,
               path := ["inbox"] } :=
  c6_shared_inbox_host_level _ "example.org" rfl (by decide) (by decide) (by decide) (by decide)

/-- Distinct endpoint types have distinct path prefixes. -/
theorem point_injective (t1 t2 : EndpointType) (h : t1.point = t2.point) : t1 = t2 := by
  revert h
  cases t1 <;> cases t2 <;> decide

theorem point_seg_safe (t : EndpointType) :
    (∀ c ∈ t.point.data, c ≠ '/') ∧ t.point ≠ "." ∧ t.point ≠ ".." := by
  cases t <;> exact ⟨by decide, by decide, by decide⟩

theorem removeDotSegments_pair (a b : String)
    (ha1 : a ≠ ".") (ha2 : a ≠ "..") (hb1 : b ≠ ".") (hb2 : b ≠ "..") :
    removeDotSegments [a, b] = [a, b] := by
  simp [removeDotSegments, ha1, ha2, hb1, hb2]

theorem generate_eval (t : EndpointType) (name scheme host : String)
    (hs : scheme.data ≠ [])
    (hsc : ∀ c ∈ scheme.data, c.isAlpha = true)
    (hh : host.data ≠ [])
    (hhc : ∀ c ∈ host.data, hostSafeChar c = true)
    (hn : name.data ≠ [])
    (hnc : ∀ c ∈ name.data, segSafeChar c = true) :
    generate_local_apub_endpoint t name (scheme ++ "://" ++ host)
      = some ⟨scheme, some host, none, [t.point, name]⟩ := by
  unfold generate_local_apub_endpoint
  have hstr : scheme ++ "://" ++ host ++ "/" ++ t.point ++ "/" ++ name
      = scheme ++ "://" ++ host ++ portString none
          ++ String.mk ('/' :: (t.point.data ++ '/' :: name.data)) := by
    apply String.ext
    simp [String.data_append, portString, List.append_assoc]
  rw [hstr]
  have hb := parse_build scheme host none ('/' :: (t.point.data ++ '/' :: name.data))
    hs hsc hh hhc (Or.inr ⟨_, rfl⟩)
  have hpt := point_seg_safe t
  have hname := segSafe_string_not_dot hn hnc
  have hpath : urlPath ('/' :: (t.point.data ++ '/' :: name.data)) = [t.point, name] := by
    unfold urlPath
    have h1 : pathSegments ('/' :: (t.point.data ++ '/' :: name.data))
        = splitOnSlash (t.point.data ++ '/' :: name.data) := rfl
    rw [h1]
    rw [splitOnSlash_append _ _ hpt.1]
    rw [splitOnSlash_clean _ (fun c hc => segSafe_not_slash (hnc c hc))]
    exact removeDotSegments_pair _ _ hpt.2.1 hpt.2.2 hname.1 hname.2
  rw [hpath] at hb
  exact hb

/-- C10, amended: `generate_local_apub_endpoint` is deterministic (a pure
function of its inputs), and for a domain of the form `scheme://host` and
a name free of `/`, `.` and URL-delimiter characters, distinct endpoint
types never produce the same URL.  (Unrestricted injectivity is false:
dot-segment normalization collapses names such as `..`, see the
counterexample.) -/
theorem c10_amended_endpoint_types_distinct :
    (∀ (t : EndpointType) (name domain : String),
        generate_local_apub_endpoint t name domain
          = generate_local_apub_endpoint t name domain)
    ∧ ∀ (t1 t2 : EndpointType) (name scheme host : String),
        scheme.data ≠ [] → (∀ c ∈ scheme.data, c.isAlpha = true) →
        host.data ≠ [] → (∀ c ∈ host.data, hostSafeChar c = true) →
        name.data ≠ [] → (∀ c ∈ name.data, segSafeChar c = true) →
        t1 ≠ t2 →
        generate_local_apub_endpoint t1 name (scheme ++ "://" ++ host)
          ≠ generate_local_apub_endpoint t2 name (scheme ++ "://" ++ host) := by
  refine ⟨fun _ _ _ => rfl, ?_⟩
  intro t1 t2 name scheme host hs hsc hh hhc hn hnc hne
  rw [generate_eval t1 name scheme host hs hsc hh hhc hn hnc,
      generate_eval t2 name scheme host hs hsc hh hhc hn hnc]
  intro heq
  apply hne
  apply point_injective
  have := Option.some.inj heq
  have hpath := congrArg Url.path this
  simp only at hpath
  exact (List.cons.inj hpath).1

theorem c10_witness :
    generate_local_apub_endpoint EndpointType.Community "alice" ("https" ++ "://" ++ "a.b")
      ≠ generate_local_apub_endpoint EndpointType.Person "alice" ("https" ++ "://" ++ "a.b") :=
  c10_amended_endpoint_types_distinct.2 EndpointType.Community EndpointType.Person
    "alice" "https" "a.b"
    (by decide) (by decide) (by decide) (by decide) (by decide) (by decide) (by decide)

theorem c10_counterexample :
    generate_local_apub_endpoint EndpointType.Community ".." "https://a.b"
      = some { scheme := "https", host := some "a.b", port := none, path := [] }
    ∧ generate_local_apub_endpoint EndpointType.Post ".." "https://a.b"
      = some { scheme := "https", host := some "a.b", port := none, path := [] } := by
  decide

/-- C7: the site outbox handler, whenever it returns a collection, returns
the empty paginated collection (no ordered items, zero total items); it
reads no stored activity state, so the result cannot depend on prior
activity volume. -/
theorem c7_outbox_always_empty (s : Settings) (ob : EmptyOutbox)
    (h : get_apub_site_outbox s = some ob) :
    ob.ordered_items = [] ∧ ob.total_items = 0 := by
  unfold get_apub_site_outbox at h
  rcases hp : Url.parse (s.get_protocol_and_hostname ++ "/site_outbox") with _ | url
  · rw [hp] at h
    cases h
  · rw [hp] at h
    injection h with h2
    subst h2
    exact ⟨rfl, rfl⟩

theorem c7_witness :
    (EmptyOutbox.new
        { scheme := "https", host := some "local.tld", port := none,
          path := ["site_outbox"] }).ordered_items = []
    ∧ (EmptyOutbox.new
        { scheme := "https", host := some "local.tld", port := none,
          path := ["site_outbox"] }).total_items = 0 :=
  c7_outbox_always_empty settingsAllow _ rfl

/-- C8: for every element parser that rejects JSON arrays (the setting in
which bare/array encodings are distinguishable) and every value `v` that
parses as `t`, `deserialize_one_or_many` decodes both the bare encoding
`v` and the one-element array `[v]` to the same one-element sequence
`[t]`, and decodes an n-element array to the sequence of its n parsed
elements. -/
theorem c8_one_or_many {T : Type} (parseT : Json → Option T) (v : Json) (t : T)
    (hv : parseT v = some t)
    (harr : ∀ xs, parseT (Json.arr xs) = none) :
    deserialize_one_or_many parseT v = some [t]
    ∧ deserialize_one_or_many parseT (Json.arr [v]) = some [t]
    ∧ ∀ xs ts, parseAll parseT xs = some ts →
        deserialize_one_or_many parseT (Json.arr xs) = some ts := by
  refine ⟨?_, ?_, ?_⟩
  · unfold deserialize_one_or_many
    rw [hv]
  · unfold deserialize_one_or_many
    rw [harr [v]]
    unfold parseAll
    rw [hv]
    unfold parseAll
    rfl
  · intro xs ts hxs
    unfold deserialize_one_or_many
    rw [harr xs]
    exact hxs

theorem c8_witness :
    deserialize_one_or_many strParser (Json.str "a") = some ["a"]
    ∧ deserialize_one_or_many strParser (Json.arr [Json.str "a"]) = some ["a"]
    ∧ deserialize_one_or_many strParser (Json.arr [Json.str "a", Json.str "b"])
        = some ["a", "b"] := by
  have h := c8_one_or_many strParser (Json.str "a") "a" rfl (fun xs => rfl)
  exact ⟨h.1, h.2.1, h.2.2 [Json.str "a", Json.str "b"] ["a", "b"] rfl⟩

/-- C9: `deserialize_skip_error` always returns successfully: the parsed
value when the inner parse succeeds, and the supplied default on any
parse failure — it never propagates an error. -/
theorem c9_skip_error_total {T : Type} (parseT : Json → Option T) (d : T) (j : Json) :
    (deserialize_skip_error parseT d j).isSome = true
    ∧ (∀ t, parseT j = some t → deserialize_skip_error parseT d j = some t)
    ∧ (parseT j = none → deserialize_skip_error parseT d j = some d) := by
  refine ⟨rfl, ?_, ?_⟩
  · intro t ht
    unfold deserialize_skip_error
    rw [ht]
  · intro hn
    unfold deserialize_skip_error
    rw [hn]

theorem c9_witness :
    deserialize_skip_error strParser "dflt" (Json.num 3) = some "dflt"
    ∧ deserialize_skip_error strParser "dflt" (Json.str "a") = some "a" :=
  ⟨(c9_skip_error_total strParser "dflt" (Json.num 3)).2.2 rfl,
   (c9_skip_error_total strParser "dflt" (Json.str "a")).2.1 "a" rfl⟩

/-- C1, counterexample: with federation enabled, matching scheme, no
block-list hit, a non-empty allow-list not containing the domain,
`strict = false` and the global strict-allowlist flag disabled, the
strictness-aware check returns the allow-list denial, not Allow. -/
theorem c1_counterexample :
    check_apub_id_valid_with_strictness urlBad false settingsAllow
      = CheckOutcome.err "Domain is not in allowlist"
    ∧ settingsAllow.federation.strict_allowlist = false
    ∧ settingsAllow.federation.enabled = true
    ∧ settingsAllow.federation.allowed_instances = some ["good.tld"]
    ∧ settingsAllow.federation.blocked_instances = none
    ∧ urlBad.domain = some "bad.tld"
    ∧ (["good.tld"] : List String).contains "bad.tld" = false
    ∧ urlBad.scheme = settingsAllow.get_protocol_string := by
  decide

/-- C1, amended: under exactly those hypotheses the strictness-aware check
returns Deny with "Domain is not in allowlist", because it unconditionally
runs the basic check first and the basic check applies the allow-list
membership test regardless of strictness. -/
theorem c1_amended_allowlist_denies (u : Url) (s : Settings) (d : String) (A : List String)
    (hd : u.domain = some d)
    (hlocal : d ≠ s.get_hostname_without_port)
    (henabled : s.federation.enabled = true)
    (hscheme : u.scheme = s.get_protocol_string)
    (hblocked : ∀ B, s.federation.blocked_instances = some B → d ∉ B)
    (hallowed : s.federation.allowed_instances = some A)
    (hnonempty : A ≠ [])
    (hnotin : d ∉ A)
    (hstrict : s.federation.strict_allowlist = false) :
    check_apub_id_valid_with_strictness u false s
      = CheckOutcome.err "Domain is not in allowlist" := by
  clear hnonempty hstrict
  have hbasic : check_apub_id_valid u s = CheckOutcome.err "Domain is not in allowlist" := by
    unfold check_apub_id_valid
    rw [hd]
    dsimp only
    rw [if_neg hlocal]
    rcases hB : s.federation.blocked_instances with _ | B
    · simp [henabled, hscheme, hB, hallowed, hnotin]
    · have hnB : d ∉ B := hblocked B hB
      simp [henabled, hscheme, hB, hallowed, hnotin, hnB]
  unfold check_apub_id_valid_with_strictness
  rw [hbasic]

/-- C1, witness for the amended theorem at `urlBad` / `settingsAllow`. -/
theorem c1_amended_witness :
    check_apub_id_valid_with_strictness urlBad false settingsAllow
      = CheckOutcome.err "Domain is not in allowlist" :=
  c1_amended_allowlist_denies urlBad settingsAllow "bad.tld" ["good.tld"]
    (by decide) (by decide) (by decide) (by decide)
    (by intro B hB; cases hB) (by decide) (by decide) (by decide) (by decide)

/-- C2: whenever the basic check `check_apub_id_valid` returns an error, the
strictness-aware check returns the same error, for both values of
`is_strict` and any settings — it runs the basic check first and
propagates its failure. -/
theorem c2_strictness_at_least_as_strict (u : Url) (b : Bool) (s : Settings) (m : String)
    (h : check_apub_id_valid u s = CheckOutcome.err m) :
    check_apub_id_valid_with_strictness u b s = CheckOutcome.err m := by
  unfold check_apub_id_valid_with_strictness
  rw [h]

/-- C2, witness: at `urlBad` / `settingsAllow` with `is_strict = true` the
basic error "Domain is not in allowlist" is propagated. -/
theorem c2_witness :
    check_apub_id_valid_with_strictness urlBad true settingsAllow
      = CheckOutcome.err "Domain is not in allowlist" :=
  c2_strictness_at_least_as_strict urlBad true settingsAllow
    "Domain is not in allowlist" (by decide)

/-- C3, counterexample: on a URL with no domain both validators panic (the
source unwraps `.domain()` with `.expect("apud id has domain")`) instead
of returning a typed `InvalidIdentifier` error. -/
theorem c3_counterexample :
    check_apub_id_valid urlNoDomain settingsAllow
      = CheckOutcome.panic "apud id has domain"
    ∧ check_apub_id_valid_with_strictness urlNoDomain false settingsAllow
      = CheckOutcome.panic "apud id has domain" := by
  decide

/-- C3, amended: for every URL with no domain component, both the basic and
the strictness-aware validator panic with the `.expect` message
"apud id has domain"; no typed error outcome is produced. -/
theorem c3_amended_no_domain_panics (u : Url) (b : Bool) (s : Settings)
    (h : u.domain = none) :
    check_apub_id_valid u s = CheckOutcome.panic "apud id has domain"
    ∧ check_apub_id_valid_with_strictness u b s
      = CheckOutcome.panic "apud id has domain" := by
  have hbasic : check_apub_id_valid u s = CheckOutcome.panic "apud id has domain" := by
    unfold check_apub_id_valid
    rw [h]
  refine ⟨hbasic, ?_⟩
  unfold check_apub_id_valid_with_strictness
  rw [hbasic]

/-- C3, witness for the amended theorem at `urlNoDomain`. -/
theorem c3_amended_witness :
    check_apub_id_valid urlNoDomain settingsBlockLocal
      = CheckOutcome.panic "apud id has domain"
    ∧ check_apub_id_valid_with_strictness urlNoDomain true settingsBlockLocal
      = CheckOutcome.panic "apud id has domain" :=
  c3_amended_no_domain_panics urlNoDomain true settingsBlockLocal (by decide)

/-- C4, counterexample: the domain `local.tld` is in the block-list of
`settingsBlockLocal`, yet `check_apub_id_valid` returns Allow for a URL
with that domain, because the local-hostname short-circuit precedes the
block-list test. -/
theorem c4_counterexample :
    settingsBlockLocal.federation.blocked_instances = some ["local.tld", "evil.tld"]
    ∧ urlLocal.domain = some "local.tld"
    ∧ (["local.tld", "evil.tld"] : List String).contains "local.tld" = true
    ∧ check_apub_id_valid urlLocal settingsBlockLocal = CheckOutcome.ok := by
  decide

/-- C4, amended: for every domain in the configured block-list that is not
the local hostname, `check_apub_id_valid` returns Deny (some error), even
when the domain is also in the allow-list. -/
theorem c4_amended_blocklist_denies (u : Url) (s : Settings) (d : String) (B : List String)
    (hd : u.domain = some d)
    (hB : s.federation.blocked_instances = some B)
    (hmem : d ∈ B)
    (hlocal : d ≠ s.get_hostname_without_port) :
    ∃ m, check_apub_id_valid u s = CheckOutcome.err m := by
  unfold check_apub_id_valid
  rw [hd]
  dsimp only
  rw [if_neg hlocal]
  by_cases he : s.federation.enabled = false
  · exact ⟨"Federation disabled", by simp [he]⟩
  · by_cases hsch : u.scheme ≠ s.get_protocol_string
    · exact ⟨"Invalid protocol scheme", by simp [he, hsch]⟩
    · exact ⟨"Domain is blocked", by simp [he, hsch, hB, hmem]⟩

/-- C4, witness for the amended theorem: `evil.tld` is blocked and denied
even though present in the allow-list. -/
theorem c4_amended_witness :
    ∃ m, check_apub_id_valid
      { scheme := "https", host := some "evil.tld", port := none, path := [] }
      settingsBlockLocal = CheckOutcome.err m :=
  c4_amended_blocklist_denies _ settingsBlockLocal "evil.tld" ["local.tld", "evil.tld"]
    (by decide) (by decide) (by decide) (by decide)

/-- C5: a URL whose domain equals the local hostname is always allowed by
`check_apub_id_valid`, whatever the allow-list, block-list and
federation-enabled flag say. -/
theorem c5_local_domain_allowed (u : Url) (s : Settings) (d : String)
    (hd : u.domain = some d)
    (hl : d = s.get_hostname_without_port) :
    check_apub_id_valid u s = CheckOutcome.ok := by
  unfold check_apub_id_valid
  rw [hd]
  dsimp only
  rw [if_pos hl]

/-- C5, witness: `https://local.tld/u/x` is allowed even though `local.tld`
is in the block-list and federation-relevant settings are adversarial. -/
theorem c5_witness :
    check_apub_id_valid urlLocal settingsBlockLocal = CheckOutcome.ok :=
  c5_local_domain_allowed urlLocal settingsBlockLocal "local.tld" (by decide) (by decide)

end Lemmy
